import Mathlib

/-!
Verification of the depth-span partitioning, culling, light-selection and
view-set state machine of vesta's UniverseRenderer
(src/thirdparty/vesta/UniverseRenderer.cpp).

Distances are modelled as exact rationals (the float constants 0.001f,
0.002f, 0.00001f, 10000.0f of the source appear as the rationals they
denote).  Each definition is a direct translation of the corresponding
C++ function; stateful loops become folds or fuel-indexed recursion, with
the fuel always instantiated so that the loop runs to completion.
-/

-- Batteries marks the arithmetic of `Rat` irreducible; restore reducibility
-- so that concrete runs of the renderer model can be checked by `decide`.
attribute [local semireducible] Rat.mul Rat.inv Rat.add Rat.sub

namespace VestaRenderer

/-- `MinimumNearPlaneDistance` constant of UniverseRenderer.cpp (1 centimeter). -/
def MinimumNearPlaneDistance : ℚ := 1 / 100000

/-- `MinimumNearFarRatio` constant of UniverseRenderer.cpp. -/
def MinimumNearFarRatio : ℚ := 1 / 1000

/-- `PreferredNearFarRatio` constant of UniverseRenderer.cpp. -/
def PreferredNearFarRatio : ℚ := 2 / 1000

/-- `MaxFarNearRatio` local constant of UniverseRenderer::renderView. -/
def MaxFarNearRatio : ℚ := 10000

/-- The fields of `UniverseRenderer::VisibleItem` that the depth-buffer
partitioner reads: the computed camera-space near and far distances.
(The entity/geometry pointers, positions and orientation play no role in
the span computation.) -/
structure VisibleItem where
  nearDistance : ℚ
  farDistance : ℚ
deriving DecidableEq

/-- `UniverseRenderer::DepthBufferSpan`: index of the backmost item,
number of items, and the depth interval `[nearDistance, farDistance]`. -/
structure DepthBufferSpan where
  backItemIndex : ℕ
  itemCount : ℕ
  nearDistance : ℚ
  farDistance : ℚ
deriving DecidableEq

/-- One iteration of the loop body of `UniverseRenderer::splitDepthBuffer`
for visible item `item` at index `i`.  The span list is kept in reverse
of its C++ storage order (head = most recently pushed span, i.e. the
nearest one), so that `m_depthBufferSpans.back()` is the head. -/
def splitStep (st : List DepthBufferSpan) (i : ℕ) (item : VisibleItem) :
    List DepthBufferSpan :=
  match st with
  | [] => [⟨i, 1, item.nearDistance, item.farDistance⟩]
  | span :: rest =>
    if item.farDistance < span.nearDistance then
      -- disjoint: a new span for the item plus an empty span for the gap
      ⟨i, 1, item.nearDistance, item.farDistance⟩ ::
        ⟨i, 0, item.farDistance, span.nearDistance⟩ :: span :: rest
    else
      -- extend the current span
      ⟨span.backItemIndex, span.itemCount + 1,
        if item.nearDistance < span.nearDistance then item.nearDistance
        else span.nearDistance,
        span.farDistance⟩ :: rest

/-- The loop of `UniverseRenderer::splitDepthBuffer`, iterating over the
visible items from back to front (`i = items.size()-1` down to `0`). -/
def splitGo (items : List VisibleItem) : ℕ → List DepthBufferSpan →
    List DepthBufferSpan
  | 0, st => st
  | i + 1, st => splitGo items i (splitStep st i (items.getD i ⟨0, 0⟩))

/-- `UniverseRenderer::splitDepthBuffer`: split the (far-ascending sorted)
visible item list into depth-buffer spans, stored back-to-front. -/
def splitDepthBuffer (items : List VisibleItem) : List DepthBufferSpan :=
  (splitGo items items.length []).reverse

/-- The inner loop of `UniverseRenderer::coalesceDepthBuffer`: starting
from span `cur` (whose `farDistance` field equals the group far `f`),
absorb following spans while `next.nearDistance / f` stays at least
`PreferredNearFarRatio`.  Returns the coalesced span and the remaining
spans. -/
def mergeGroup (f : ℚ) (cur : DepthBufferSpan) :
    List DepthBufferSpan → DepthBufferSpan × List DepthBufferSpan
  | [] => (cur, [])
  | next :: rest =>
    if next.nearDistance / f < PreferredNearFarRatio then
      (cur, next :: rest)
    else
      mergeGroup f
        ⟨cur.backItemIndex, cur.itemCount + next.itemCount,
          next.nearDistance, cur.farDistance⟩ rest

/-- The outer loop of `UniverseRenderer::coalesceDepthBuffer`, written
with explicit fuel (the list length is always enough fuel, since every
group consumes at least one span). -/
def coalesceAux : ℕ → List DepthBufferSpan → List DepthBufferSpan
  | 0, _ => []
  | _, [] => []
  | fuel + 1, s :: rest =>
    let p := mergeGroup s.farDistance s rest
    p.1 :: coalesceAux fuel p.2

/-- `UniverseRenderer::coalesceDepthBuffer`: greedily merge adjacent
depth-buffer spans while the preferred near/far ratio is preserved. -/
def coalesceDepthBuffer (spans : List DepthBufferSpan) :
    List DepthBufferSpan :=
  coalesceAux spans.length spans

/-! ### Visibility collection (`UniverseRenderer::addVisibleItem`) -/

/-- `Geometry::ClippingPolicy` (Geometry.h). -/
inductive ClippingPolicy where
  | PreserveDepthPrecision
  | PreventClipping
  | SplitToPreventClipping
deriving DecidableEq

/-- The facts `addVisibleItem` reads from a `Geometry` object: bounding
sphere radius, clipping policy, and the value its direction-dependent
`nearPlaneDistance` function returns for the view direction in use. -/
structure GeometryModel where
  boundingSphereRadius : ℚ
  clippingPolicy : ClippingPolicy
  nearPlaneDistanceValue : ℚ
deriving DecidableEq

/-- The `switch (geometry->clippingPolicy())` clamp of
`addVisibleItem`: the geometry's direction-dependent near-plane
distance, clamped from below per clipping policy. -/
def clampedNearDistance (geometry : GeometryModel) : ℚ :=
  match geometry.clippingPolicy with
  | .PreserveDepthPrecision =>
      max geometry.nearPlaneDistanceValue
        (geometry.boundingSphereRadius * MinimumNearFarRatio * 2)
  | .PreventClipping =>
      max geometry.nearPlaneDistanceValue MinimumNearPlaneDistance
  | .SplitToPreventClipping =>
      max geometry.nearPlaneDistanceValue MinimumNearPlaneDistance

/-- `UniverseRenderer::addVisibleItem`: compute far and clamped near
distances for an entity and append it to the visible or splittable list
when it passes the `farDistance > 0 && nearDistance < farDistance`
admission test.  `cameraSpaceZ` is the camera-space z coordinate of the
entity, `nearAdjust` the FOV-derived adjustment factor.  Returns the
updated `(m_visibleItems, m_splittableItems)` pair. -/
def addVisibleItem (visibleItems splittableItems : List VisibleItem)
    (geometry : GeometryModel) (cameraSpaceZ : ℚ) (nearAdjust : ℚ) :
    List VisibleItem × List VisibleItem :=
  let boundingRadius := geometry.boundingSphereRadius
  let farDistance := -cameraSpaceZ + boundingRadius
  let nearDistance := clampedNearDistance geometry * nearAdjust
  if 0 < farDistance ∧ nearDistance < farDistance then
    if geometry.clippingPolicy = .SplitToPreventClipping then
      (visibleItems, splittableItems ++ [⟨nearDistance, farDistance⟩])
    else
      (visibleItems ++ [⟨nearDistance, farDistance⟩], splittableItems)
  else
    (visibleItems, splittableItems)

/-! ### Depth sorting (`visibleItemPredicate` with `std::sort`).
The span pipeline only depends on the items being in far-ascending
order; a stable insertion sort stands in for the library sort. -/

/-- Insert an item into a far-ascending sorted list. -/
def insertByFar (item : VisibleItem) :
    List VisibleItem → List VisibleItem
  | [] => [item]
  | x :: xs =>
    if item.farDistance ≤ x.farDistance then item :: x :: xs
    else x :: insertByFar item xs

/-- Sort a visible-item list ascending by `farDistance`
(`sort(..., visibleItemPredicate)` in `renderView`). -/
def sortByFar (items : List VisibleItem) : List VisibleItem :=
  items.foldr insertByFar []

/-! ### Span-list extension for splittable geometry
(`UniverseRenderer::renderView`, lines 663-711). -/

/-- The `while (m_mergedDepthBufferSpans.back().nearDistance >
projection.nearDistance())` loop of `renderView`: repeatedly append a
synthetic front span `[max(projNear, far / MaxFarNearRatio), far]`
where `far` is the current frontmost (last-stored) span's near
distance.  The loop is written with explicit fuel; the theorems provide
enough fuel for the loop to run to completion. -/
def addFrontSpans (projNear : ℚ) :
    ℕ → List DepthBufferSpan → List DepthBufferSpan
  | 0, spans => spans
  | fuel + 1, spans =>
    match spans.getLast? with
    | none => spans
    | some lastSpan =>
      if projNear < lastSpan.nearDistance then
        addFrontSpans projNear fuel
          (spans ++
            [⟨0, 0, max projNear (lastSpan.nearDistance / MaxFarNearRatio),
              lastSpan.nearDistance⟩])
      else spans

/-- The `if (!m_splittableItems.empty())` block of `renderView`:
given the far distance of the first (smallest-far) sorted splittable
item, the projection's near and far distances, the raw span list and
the merged span list, produce the final merged span list.  Steps:
(1) if the raw span list is empty, seed a single span below the
projection far plane; otherwise prepend a gap span up to
`min(splittableFrontFar, projFar)` when that exceeds the current
farthest span; (2) append synthetic front spans until the camera near
distance is covered; (3) unconditionally prepend an outermost back
span with `far = near * MaxFarNearRatio`. -/
def extendSpansForSplittable (splittableFrontFar projNear projFar : ℚ)
    (fuel : ℕ) (rawSpans merged : List DepthBufferSpan) :
    List DepthBufferSpan :=
  let furthestDistance := min splittableFrontFar projFar
  let m1 :=
    if rawSpans.isEmpty then
      [⟨0, 0, max projNear (projFar / MaxFarNearRatio), projFar⟩]
    else
      match merged.head? with
      | none => merged
      | some front =>
        if front.farDistance < furthestDistance then
          ⟨0, 0, front.farDistance, furthestDistance⟩ :: merged
        else merged
  let m2 := addFrontSpans projNear fuel m1
  match m2.head? with
  | none => m2
  | some front =>
    ⟨0, 0, front.farDistance, front.farDistance * MaxFarNearRatio⟩ :: m2

/-- The depth-span portion of `UniverseRenderer::renderView`: sort the
visible and splittable item lists ascending by far distance, split and
coalesce the depth buffer, and extend the merged span list when
splittable items are present.  Returns the final contents of
`m_mergedDepthBufferSpans`. -/
def renderViewSpans (visibleItems splittableItems : List VisibleItem)
    (projNear projFar : ℚ) (fuel : ℕ) : List DepthBufferSpan :=
  let sortedVisible := sortByFar visibleItems
  let sortedSplittable := sortByFar splittableItems
  let raw := splitDepthBuffer sortedVisible
  let merged := coalesceDepthBuffer raw
  match sortedSplittable.head? with
  | none => merged
  | some frontItem =>
    extendSpansForSplittable frontItem.farDistance projNear projFar fuel
      raw merged

/-! ### Light sources (`buildVisibleLightSourceList`,
`lightCastsShadowsPredicate`) -/

/-- A light source entry of the master list `m_lightSources`, together
with the per-view data the culling code derives for it: `isSun` marks
the sentinel entry whose `lightSource` pointer is null; `range` is
`lightSource->range()`; `distance` abbreviates
`cameraRelativePosition.norm()`; `inFrustum` is the result of the
bounding-sphere frustum test `m_viewFrustum.intersects(...)`. -/
structure LightSourceItem where
  isSun : Bool
  shadowCaster : Bool
  range : ℚ
  distance : ℚ
  inFrustum : Bool
deriving DecidableEq

/-- The culling decision of `buildVisibleLightSourceList` for one light:
the sun sentinel is never culled; otherwise a light is culled when its
projected size `range / distance / pixelSize` is below one pixel, or
else when its bounding sphere misses the view frustum. -/
def lightSourceCulled (pixelSize : ℚ) (l : LightSourceItem) : Bool :=
  if l.isSun then false
  else if l.range / l.distance / pixelSize < 1 then true
  else !l.inFrustum

/-- The filter phase of `buildVisibleLightSourceList`: keep the lights
that are not culled, in master-list order. -/
def visibleLightCandidates (pixelSize : ℚ)
    (lightSources : List LightSourceItem) : List LightSourceItem :=
  lightSources.filter (fun l => !lightSourceCulled pixelSize l)

/-- The shadow rank used by `lightCastsShadowsPredicate`: 1 when the
light casts shadows (the null/sun entry counts as a caster), else 0. -/
def castsShadowRank (l : LightSourceItem) : ℕ :=
  if l.isSun || l.shadowCaster then 1 else 0

/-- `lightCastsShadowsPredicate(light0, light1)`: `shadow0 > shadow1`. -/
def lightCastsShadowsPred (l0 l1 : LightSourceItem) : Bool :=
  castsShadowRank l1 < castsShadowRank l0

/-- The postcondition the C++ standard gives for
`sort(first, last, lightCastsShadowsPredicate)`: the output is a
permutation of the input that is sorted with respect to the
predicate.  `std::sort` promises nothing more — in particular it is
not stable, so within this contract the relative order of elements
with equal shadow rank is arbitrary. -/
def SortContractHolds (input output : List LightSourceItem) : Prop :=
  input.Perm output ∧
    List.Chain' (fun a b => lightCastsShadowsPred b a = false) output

instance (input output : List LightSourceItem) :
    Decidable (SortContractHolds input output) :=
  inferInstanceAs
    (Decidable (input.Perm output ∧
      List.Chain' (fun a b => lightCastsShadowsPred b a = false) output))

/-! ### Entity size culling (`renderView`, lines 596-606) -/

/-- The `sizeCull` computation of `renderView` for one entity: entities
without geometry are always culled; an entity with geometry is culled
when its projected size `boundingSphereRadius / distance / pixelSize`
is below half a pixel. -/
def entitySizeCull (hasGeometry : Bool)
    (boundingRadius distance pixelSize : ℚ) : Bool :=
  if hasGeometry then boundingRadius / distance / pixelSize < 1/2
  else true

/-! ### Renderer state machine (`beginViewSet` / `endViewSet` /
`renderView` status codes, `setShadowsEnabled`,
`initializeShadowMaps`) -/

/-- `UniverseRenderer::RenderStatus`. -/
inductive RenderStatus where
  | RenderOk
  | RendererUninitialized
  | RendererBadParameter
  | RenderViewSetAlreadyStarted
  | RenderNoViewSet
deriving DecidableEq

/-- The persistent renderer state the claims touch:
`renderContextInitialized` stands for `m_renderContext != NULL`,
`universeOpen` for `m_universe != NULL`, `shadowsEnabled` for
`m_shadowsEnabled`, and `shadowMaps` for the pool `m_shadowMaps`,
where a pool entry `none` is a null `counted_ptr` and `some v` a
non-null framebuffer whose `isValid()` returns `v`. -/
structure RendererState where
  renderContextInitialized : Bool
  universeOpen : Bool
  shadowsEnabled : Bool
  shadowMaps : List (Option Bool)
deriving DecidableEq

/-- `UniverseRenderer::beginViewSet` (status logic; the light-source
snapshot it also builds is modelled separately).  `universeIsNull`
models `universe == NULL`. -/
def beginViewSet (st : RendererState) (universeIsNull : Bool) :
    RendererState × RenderStatus :=
  if st.renderContextInitialized = false then
    (st, .RendererUninitialized)
  else if universeIsNull then
    (st, .RendererBadParameter)
  else if st.universeOpen then
    (st, .RenderViewSetAlreadyStarted)
  else
    ({ st with universeOpen := true }, .RenderOk)

/-- `UniverseRenderer::endViewSet`. -/
def endViewSet (st : RendererState) : RendererState × RenderStatus :=
  if st.universeOpen = false then
    (st, .RenderNoViewSet)
  else
    ({ st with universeOpen := false }, .RenderOk)

/-- The status guard at the top of `UniverseRenderer::renderView`:
`RenderNoViewSet` when no view set is open, otherwise the render runs
to completion and returns `RenderOk`. -/
def renderViewStatus (st : RendererState) : RenderStatus :=
  if st.universeOpen = false then .RenderNoViewSet else .RenderOk

/-- `UniverseRenderer::setShadowsEnabled`: the flag is written only
when the first shadow-map pool entry is non-null and valid.  (The C++
reads `m_shadowMaps[0]` unconditionally, which for an empty pool is an
out-of-bounds vector access; the model treats that read as a null
entry, so the guard fails and the state is unchanged.) -/
def setShadowsEnabled (st : RendererState) (enable : Bool) :
    RendererState :=
  match st.shadowMaps.headD none with
  | some true => { st with shadowsEnabled := enable }
  | _ => st

/-- The framebuffer-creation loop of `initializeShadowMaps`:
`creations` lists the results `Framebuffer::CreateDepthOnlyFramebuffer`
returns for each slot.  A null result aborts the loop, clears the pool
and fails. -/
def buildShadowPool :
    List (Option Bool) → Option (List (Option Bool))
  | [] => some []
  | none :: _ => none
  | some v :: rest => (buildShadowPool rest).map (some v :: ·)

/-- `UniverseRenderer::initializeShadowMaps` (pool logic; the
size/count clamping does not affect these claims, so `creations`
already stands for the clamped number of creation attempts).  Shadows
are reset to disabled and the pool cleared before the pool is rebuilt;
early failure paths leave the state untouched. -/
def initializeShadowMaps (st : RendererState)
    (shadowsSupportedNow : Bool) (creations : List (Option Bool)) :
    RendererState × Bool :=
  if st.renderContextInitialized = false then (st, false)
  else if shadowsSupportedNow = false then (st, false)
  else
    let st1 := { st with shadowsEnabled := false, shadowMaps := [] }
    match buildShadowPool creations with
    | none => (st1, false)
    | some pool => ({ st1 with shadowMaps := pool }, true)

/-- The invariant of claim C10: whenever shadows are enabled, the first
shadow-map pool entry is non-null and valid. -/
def ShadowInvariant (st : RendererState) : Prop :=
  st.shadowsEnabled = true → st.shadowMaps.headD none = some true

/-! ### Per-view transient state (`renderView` body) -/

/-- The per-frame member lists `renderView` fills:
`m_visibleItems`, `m_splittableItems`, `m_depthBufferSpans`,
`m_mergedDepthBufferSpans`, `m_visibleLightSources`.  Every one of
them is cleared before it is refilled, so their previous contents
never influence a render. -/
structure ViewTransients where
  visibleItems : List VisibleItem
  splittableItems : List VisibleItem
  depthBufferSpans : List DepthBufferSpan
  mergedDepthBufferSpans : List DepthBufferSpan
  visibleLightSources : List LightSourceItem
deriving DecidableEq

/-- One `renderView` call viewed as a transformation of the transient
member lists.  `visibleItems` / `splittableItems` are the unsorted
lists collected by the `addVisibleItem` scan (functions of scene,
time and camera only), `masterLights` is the `m_lightSources`
snapshot taken by `beginViewSet`, and `lightOrder` is the
(deterministic, but otherwise arbitrary) sorting routine the C++
library supplies for `std::sort`.  Because the C++ clears every
transient list before refilling it, the previous transients `prev`
are discarded. -/
def renderViewPass (visibleItems splittableItems : List VisibleItem)
    (masterLights : List LightSourceItem)
    (pixelSize projNear projFar : ℚ) (fuel : ℕ)
    (lightOrder : List LightSourceItem → List LightSourceItem)
    (_prev : ViewTransients) : ViewTransients :=
  { visibleItems := sortByFar visibleItems
    splittableItems := sortByFar splittableItems
    depthBufferSpans := splitDepthBuffer (sortByFar visibleItems)
    mergedDepthBufferSpans :=
      renderViewSpans visibleItems splittableItems projNear projFar fuel
    visibleLightSources :=
      lightOrder (visibleLightCandidates pixelSize masterLights) }

/-! ### Specification predicates -/

/-- A visible item as produced by `addVisibleItem` in a realistic
configuration: positive near distance and `nearDistance < farDistance`
(the latter is exactly the admission test of `addVisibleItem`). -/
def ValidItem (item : VisibleItem) : Prop :=
  0 < item.nearDistance ∧ item.nearDistance < item.farDistance

/-- A proper depth-buffer span: a nonempty interval with positive near
distance. -/
def ValidSpan (s : DepthBufferSpan) : Prop :=
  0 < s.nearDistance ∧ s.nearDistance < s.farDistance

/-- Contiguity of consecutive spans in back-to-front storage order:
the nearer span starts exactly where the farther one ends. -/
def spanStep (a b : DepthBufferSpan) : Prop :=
  b.farDistance = a.nearDistance

/-- Contiguity of consecutive spans in the reversed (front-to-back)
order used while the list is being built. -/
def revSpanStep (a b : DepthBufferSpan) : Prop :=
  a.farDistance = b.nearDistance

/-- A span list is chained when consecutive spans tile the depth range
with no gap and no overlap (back-to-front storage order). -/
def Chained (l : List DepthBufferSpan) : Prop :=
  List.Chain' spanStep l

/-- Sum of the `itemCount` fields of a span list. -/
def totalItems (l : List DepthBufferSpan) : ℕ :=
  (l.map (fun s => s.itemCount)).sum

/-- The item list is sorted ascending by `farDistance`
(the postcondition of `sort(..., visibleItemPredicate)`). -/
def SortedByFar (items : List VisibleItem) : Prop :=
  List.Chain' (fun a b => a.farDistance ≤ b.farDistance) items

/-- A `Decidable` instance for `List.Chain'` that evaluates by kernel
reduction (the library instance does not). -/
def chainDecidable {α : Type} {R : α → α → Prop} [DecidableRel R] :
    ∀ l : List α, Decidable (List.Chain' R l)
  | [] => isTrue List.chain'_nil
  | [a] => isTrue (List.chain'_singleton a)
  | a :: b :: l =>
    haveI : Decidable (List.Chain' R (b :: l)) := chainDecidable (b :: l)
    decidable_of_iff (R a b ∧ List.Chain' R (b :: l))
      List.chain'_cons.symm

instance (priority := 2000) {α : Type} {R : α → α → Prop}
    [DecidableRel R] (l : List α) : Decidable (List.Chain' R l) :=
  chainDecidable l

instance (item : VisibleItem) : Decidable (ValidItem item) :=
  inferInstanceAs
    (Decidable (0 < item.nearDistance ∧
      item.nearDistance < item.farDistance))

instance (s : DepthBufferSpan) : Decidable (ValidSpan s) :=
  inferInstanceAs
    (Decidable (0 < s.nearDistance ∧ s.nearDistance < s.farDistance))

instance : DecidableRel spanStep := fun a b =>
  inferInstanceAs (Decidable (b.farDistance = a.nearDistance))

instance (l : List DepthBufferSpan) : Decidable (Chained l) :=
  inferInstanceAs (Decidable (List.Chain' spanStep l))

instance (items : List VisibleItem) : Decidable (SortedByFar items) :=
  inferInstanceAs
    (Decidable
      (List.Chain'
        (fun a b : VisibleItem => a.farDistance ≤ b.farDistance) items))

/-! ## Lemmas about the depth-buffer partitioner -/

-- sanity checks, traced against the C++ by hand
example :
    splitDepthBuffer [⟨9, 10⟩, ⟨99999, 100000⟩] =
      [⟨1, 1, 99999, 100000⟩, ⟨0, 0, 10, 99999⟩, ⟨0, 1, 9, 10⟩] := by decide

example :
    coalesceDepthBuffer (splitDepthBuffer [⟨9, 10⟩, ⟨11, 12⟩]) =
      [⟨1, 2, 9, 12⟩] := by decide

theorem getD_mem {α : Type} (l : List α) (i : ℕ) (d : α)
    (h : i < l.length) : l.getD i d ∈ l := by
  induction l generalizing i with
  | nil => simp at h
  | cons a as ih =>
    cases i with
    | zero => simp
    | succ j =>
      simp only [List.getD_cons_succ]
      exact List.mem_cons_of_mem a (ih j (by simpa using h))

theorem totalItems_splitStep (st : List DepthBufferSpan) (i : ℕ)
    (item : VisibleItem) :
    totalItems (splitStep st i item) = totalItems st + 1 := by
  cases st with
  | nil => simp [splitStep, totalItems]
  | cons span rest =>
    by_cases h : item.farDistance < span.nearDistance <;>
      simp [splitStep, h, totalItems] <;> omega

theorem totalItems_splitGo (items : List VisibleItem) :
    ∀ (n : ℕ) (st : List DepthBufferSpan),
    totalItems (splitGo items n st) = totalItems st + n := by
  intro n
  induction n with
  | zero => intro st; simp [splitGo]
  | succ m ih =>
    intro st
    rw [splitGo, ih, totalItems_splitStep]
    omega

theorem totalItems_reverse (l : List DepthBufferSpan) :
    totalItems l.reverse = totalItems l := by
  simp [totalItems, List.sum_reverse]

theorem splitDepthBuffer_totalItems (items : List VisibleItem) :
    totalItems (splitDepthBuffer items) = items.length := by
  rw [splitDepthBuffer, totalItems_reverse, totalItems_splitGo]
  simp [totalItems]

theorem splitStep_inv (st : List DepthBufferSpan) (i : ℕ)
    (item : VisibleItem) (hitem : ValidItem item)
    (hv : ∀ s ∈ st, ValidSpan s)
    (hch : List.Chain' revSpanStep st) :
    (∀ s ∈ splitStep st i item, ValidSpan s) ∧
      List.Chain' revSpanStep (splitStep st i item) := by
  obtain ⟨hpos, hnf⟩ := hitem
  cases st with
  | nil =>
    refine ⟨?_, ?_⟩
    · intro s hs
      simp [splitStep] at hs
      subst hs
      exact ⟨hpos, hnf⟩
    · simp [splitStep]
  | cons span rest =>
    have hspan := hv span (List.mem_cons_self span rest)
    by_cases h : item.farDistance < span.nearDistance
    · refine ⟨?_, ?_⟩
      · intro s hs
        simp only [splitStep, if_pos h, List.mem_cons] at hs
        rcases hs with hs | hs | hs
        · subst hs; exact ⟨hpos, hnf⟩
        · subst hs
          exact ⟨lt_trans hpos hnf, h⟩
        · exact hv s (List.mem_cons.mpr hs)
      · simp only [splitStep, if_pos h]
        refine List.Chain'.cons ?_ (List.Chain'.cons ?_ hch)
        · exact rfl
        · exact rfl
    · refine ⟨?_, ?_⟩
      · intro s hs
        simp only [splitStep, if_neg h, List.mem_cons] at hs
        rcases hs with hs | hs
        · subst hs
          constructor
          · by_cases h2 : item.nearDistance < span.nearDistance <;>
              simp [h2, hpos, hspan.1]
          · by_cases h2 : item.nearDistance < span.nearDistance <;>
              simp only [h2, if_pos, if_neg, if_true, if_false]
            · exact lt_trans h2 hspan.2
            · exact hspan.2
        · exact hv s (List.mem_cons_of_mem span hs)
      · simp only [splitStep, if_neg h]
        cases rest with
        | nil => simp
        | cons r rs =>
          rcases hch with _ | ⟨hstep, hch2⟩
          exact List.Chain'.cons hstep hch2

theorem splitGo_inv (items : List VisibleItem)
    (hitems : ∀ it ∈ items, ValidItem it) :
    ∀ (n : ℕ) (st : List DepthBufferSpan), n ≤ items.length →
    (∀ s ∈ st, ValidSpan s) → List.Chain' revSpanStep st →
    (∀ s ∈ splitGo items n st, ValidSpan s) ∧
      List.Chain' revSpanStep (splitGo items n st) := by
  intro n
  induction n with
  | zero => intro st _ hv hch; exact ⟨hv, hch⟩
  | succ m ih =>
    intro st hn hv hch
    rw [splitGo]
    have hmem : items.getD m ⟨0, 0⟩ ∈ items :=
      getD_mem items m ⟨0, 0⟩ (by omega)
    have hstep := splitStep_inv st m (items.getD m ⟨0, 0⟩)
      (hitems _ hmem) hv hch
    exact ih _ (by omega) hstep.1 hstep.2

theorem splitDepthBuffer_inv (items : List VisibleItem)
    (hitems : ∀ it ∈ items, ValidItem it) :
    (∀ s ∈ splitDepthBuffer items, ValidSpan s) ∧
      Chained (splitDepthBuffer items) := by
  have h := splitGo_inv items hitems items.length [] le_rfl
    (by intro s hs; simp at hs) (by simp)
  refine ⟨?_, ?_⟩
  · intro s hs
    rw [splitDepthBuffer, List.mem_reverse] at hs
    exact h.1 s hs
  · rw [Chained, splitDepthBuffer, List.chain'_reverse]
    exact h.2

theorem totalItems_cons (a : DepthBufferSpan) (l : List DepthBufferSpan) :
    totalItems (a :: l) = a.itemCount + totalItems l := by
  simp [totalItems]

theorem mergeGroup_rest_length (f : ℚ) :
    ∀ (l : List DepthBufferSpan) (cur : DepthBufferSpan),
    (mergeGroup f cur l).2.length ≤ l.length := by
  intro l
  induction l with
  | nil => intro cur; simp [mergeGroup]
  | cons next rest ih =>
    intro cur
    by_cases h : next.nearDistance / f < PreferredNearFarRatio
    · simp [mergeGroup, h]
    · simp only [mergeGroup, if_neg h]
      exact le_trans (ih _) (by simp)

theorem mergeGroup_itemCount (f : ℚ) :
    ∀ (l : List DepthBufferSpan) (cur : DepthBufferSpan),
    (mergeGroup f cur l).1.itemCount + totalItems (mergeGroup f cur l).2 =
      cur.itemCount + totalItems l := by
  intro l
  induction l with
  | nil => intro cur; simp [mergeGroup, totalItems]
  | cons next rest ih =>
    intro cur
    by_cases h : next.nearDistance / f < PreferredNearFarRatio
    · simp only [mergeGroup, if_pos h]
    · simp only [mergeGroup, if_neg h]
      rw [ih, totalItems_cons]
      dsimp only
      omega

theorem coalesceAux_nil (fuel : ℕ) : coalesceAux fuel [] = [] := by
  cases fuel <;> rfl

theorem coalesceAux_totalItems :
    ∀ (fuel : ℕ) (l : List DepthBufferSpan), l.length ≤ fuel →
    totalItems (coalesceAux fuel l) = totalItems l := by
  intro fuel
  induction fuel with
  | zero =>
    intro l hl
    rw [List.length_eq_zero.mp (Nat.le_zero.mp hl)]
    rfl
  | succ m ih =>
    intro l hl
    cases l with
    | nil => rfl
    | cons s rest =>
      have hlen := mergeGroup_rest_length s.farDistance rest s
      rw [coalesceAux]
      rw [totalItems_cons,
        ih _ (le_trans hlen (by simpa using Nat.succ_le_succ_iff.mp hl)),
        mergeGroup_itemCount, totalItems_cons]

theorem coalesceDepthBuffer_totalItems (l : List DepthBufferSpan) :
    totalItems (coalesceDepthBuffer l) = totalItems l :=
  coalesceAux_totalItems l.length l le_rfl

theorem mergeGroup_spec (f : ℚ) :
    ∀ (l : List DepthBufferSpan) (cur : DepthBufferSpan),
    cur.farDistance = f → ValidSpan cur → (∀ s ∈ l, ValidSpan s) →
    Chained (cur :: l) →
    ValidSpan (mergeGroup f cur l).1 ∧
    (mergeGroup f cur l).1.farDistance = f ∧
    (mergeGroup f cur l).1.nearDistance ≤ cur.nearDistance ∧
    (∀ s ∈ (mergeGroup f cur l).2, ValidSpan s) ∧
    Chained ((mergeGroup f cur l).1 :: (mergeGroup f cur l).2) ∧
    (mergeGroup f cur l).2 <:+ l ∧
    (∀ b bs, (mergeGroup f cur l).2 = b :: bs →
      b.nearDistance / f < PreferredNearFarRatio) ∧
    ((mergeGroup f cur l).1 = cur ∨
      PreferredNearFarRatio ≤ (mergeGroup f cur l).1.nearDistance / f) := by
  intro l
  induction l with
  | nil =>
    intro cur hf hcur _ hch
    refine ⟨hcur, hf, le_rfl, ?_, ?_, ?_, ?_, Or.inl rfl⟩
    · intro s hs; simp [mergeGroup] at hs
    · exact hch
    · simp [mergeGroup]
    · intro b bs hb; simp [mergeGroup] at hb
  | cons next rest ih =>
    intro cur hf hcur hl hch
    have hnext : ValidSpan next := hl next (List.mem_cons_self _ _)
    have hrest : ∀ s ∈ rest, ValidSpan s := fun s hs =>
      hl s (List.mem_cons_of_mem _ hs)
    have hpair := List.chain'_cons.mp hch
    have hstep : next.farDistance = cur.nearDistance := hpair.1
    have hch2 : List.Chain' spanStep (next :: rest) := hpair.2
    by_cases h : next.nearDistance / f < PreferredNearFarRatio
    · have heq : mergeGroup f cur (next :: rest) = (cur, next :: rest) := by
        simp only [mergeGroup, if_pos h]
      rw [heq]
      refine ⟨hcur, hf, le_rfl, hl, hch, List.suffix_refl _, ?_, Or.inl rfl⟩
      intro b bs hb
      have hb2 : next :: rest = b :: bs := hb
      injection hb2 with hb1 _
      rw [← hb1]
      exact h
    · have heq : mergeGroup f cur (next :: rest) =
          mergeGroup f
            (⟨cur.backItemIndex, cur.itemCount + next.itemCount,
              next.nearDistance, cur.farDistance⟩ : DepthBufferSpan) rest := by
        simp only [mergeGroup, if_neg h]
      rw [heq]
      have hnearlt : next.nearDistance < cur.nearDistance := by
        rw [← hstep]; exact hnext.2
      have harg2 : ValidSpan
          (⟨cur.backItemIndex, cur.itemCount + next.itemCount,
            next.nearDistance, cur.farDistance⟩ : DepthBufferSpan) :=
        ⟨hnext.1, lt_trans hnearlt hcur.2⟩
      have harg4 : Chained
          ((⟨cur.backItemIndex, cur.itemCount + next.itemCount,
            next.nearDistance, cur.farDistance⟩ : DepthBufferSpan) :: rest) := by
        cases rest with
        | nil => simp [Chained]
        | cons r rs =>
          have hpair2 := List.chain'_cons.mp hch2
          exact List.Chain'.cons hpair2.1 hpair2.2
      obtain ⟨g1, g2, g3, g4, g5, g6, g7, g8⟩ :=
        ih (⟨cur.backItemIndex, cur.itemCount + next.itemCount,
          next.nearDistance, cur.farDistance⟩ : DepthBufferSpan) hf harg2
          hrest harg4
      refine ⟨g1, g2, ?_, g4, g5, ?_, g7, ?_⟩
      · exact le_trans g3 (le_of_lt hnearlt)
      · exact g6.trans (List.suffix_cons next rest)
      · rcases g8 with g8 | g8
        · right
          rw [g8]
          exact le_of_not_lt h
        · right
          exact g8

theorem coalesceAux_spec :
    ∀ (fuel : ℕ) (l : List DepthBufferSpan), l.length ≤ fuel →
    Chained l → (∀ s ∈ l, ValidSpan s) →
    Chained (coalesceAux fuel l) ∧
    (∀ s ∈ coalesceAux fuel l, ValidSpan s) ∧
    List.Chain'
      (fun a b => b.nearDistance / a.farDistance < PreferredNearFarRatio)
      (coalesceAux fuel l) ∧
    (∀ s ∈ coalesceAux fuel l,
      s ∈ l ∨ PreferredNearFarRatio ≤ s.nearDistance / s.farDistance) ∧
    (coalesceAux fuel l).head?.map (fun s => s.farDistance) =
      l.head?.map (fun s => s.farDistance) ∧
    (∀ hh tt, coalesceAux fuel l = hh :: tt → ∀ b bs, l = b :: bs →
      hh.nearDistance ≤ b.nearDistance) := by
  intro fuel
  induction fuel with
  | zero =>
    intro l hl _ _
    rw [List.length_eq_zero.mp (Nat.le_zero.mp hl)]
    refine ⟨List.chain'_nil, ?_, List.chain'_nil, ?_, rfl, ?_⟩
    · intro s hs; simp [coalesceAux] at hs
    · intro s hs; simp [coalesceAux] at hs
    · intro hh tt heq; simp [coalesceAux] at heq
  | succ m ih =>
    intro l hl hch hv
    cases l with
    | nil =>
      refine ⟨List.chain'_nil, ?_, List.chain'_nil, ?_, rfl, ?_⟩
      · intro s hs; simp [coalesceAux] at hs
      · intro s hs; simp [coalesceAux] at hs
      · intro hh tt heq; simp [coalesceAux] at heq
    | cons s rest =>
      have hvs : ValidSpan s := hv s (List.mem_cons_self _ _)
      have hvrest : ∀ x ∈ rest, ValidSpan x := fun x hx =>
        hv x (List.mem_cons_of_mem _ hx)
      obtain ⟨A1, A2, A3, A4, A5, A6, A7, A8⟩ :=
        mergeGroup_spec s.farDistance rest s rfl hvs hvrest hch
      have hlen2 : (mergeGroup s.farDistance s rest).2.length ≤ m :=
        le_trans A6.length_le (by simpa using Nat.succ_le_succ_iff.mp hl)
      obtain ⟨B1, B2, B3, B4, B5, B6⟩ :=
        ih (mergeGroup s.farDistance s rest).2 hlen2 A5.tail A4
      have hunf : coalesceAux (m + 1) (s :: rest) =
          (mergeGroup s.farDistance s rest).1 ::
            coalesceAux m (mergeGroup s.farDistance s rest).2 := rfl
      rw [hunf]
      have hf0 : 0 < s.farDistance := lt_trans hvs.1 hvs.2
      refine ⟨?_, ?_, ?_, ?_, ?_, ?_⟩
      · -- chained
        cases hres : coalesceAux m (mergeGroup s.farDistance s rest).2 with
        | nil => exact List.chain'_singleton _
        | cons h2 t2 =>
          rw [hres] at B1 B5
          cases hmg : (mergeGroup s.farDistance s rest).2 with
          | nil => rw [hmg] at B5; simp at B5
          | cons b bs =>
            rw [hmg] at B5
            simp only [List.head?_cons, Option.map_some] at B5
            have hbfar : h2.farDistance = b.farDistance :=
              Option.some.inj B5
            have hlink : spanStep (mergeGroup s.farDistance s rest).1 h2 := by
              rw [hmg] at A5
              have := (List.chain'_cons.mp A5).1
              rw [spanStep, hbfar]
              exact this
            exact List.Chain'.cons hlink B1
      · -- all spans valid
        intro x hx
        rcases List.mem_cons.mp hx with hx | hx
        · rw [hx]; exact A1
        · exact B2 x hx
      · -- break-ratio chain
        cases hres : coalesceAux m (mergeGroup s.farDistance s rest).2 with
        | nil => exact List.chain'_singleton _
        | cons h2 t2 =>
          rw [hres] at B3 B5 B6
          cases hmg : (mergeGroup s.farDistance s rest).2 with
          | nil => rw [hmg] at B5; simp at B5
          | cons b bs =>
            have hbreak : b.nearDistance / s.farDistance <
                PreferredNearFarRatio := A7 b bs hmg
            have hnle : h2.nearDistance ≤ b.nearDistance :=
              B6 h2 t2 rfl b bs hmg
            have hdiv : h2.nearDistance / s.farDistance ≤
                b.nearDistance / s.farDistance :=
              (div_le_div_iff_of_pos_right hf0).mpr hnle
            have hlt : h2.nearDistance /
                (mergeGroup s.farDistance s rest).1.farDistance <
                PreferredNearFarRatio := by
              rw [A2]
              exact lt_of_le_of_lt hdiv hbreak
            exact List.Chain'.cons hlt B3
      · -- membership / ratio
        intro x hx
        rcases List.mem_cons.mp hx with hx | hx
        · rcases A8 with h8 | h8
          · left
            rw [hx, h8]
            exact List.mem_cons_self _ _
          · right
            rw [hx]
            rw [A2]
            exact h8
        · rcases B4 x hx with h4 | h4
          · left
            exact List.mem_cons_of_mem _ (A6.subset h4)
          · right
            exact h4
      · -- head far preserved
        simp [A2]
      · -- head near bounded
        intro hh tt heq b bs hbs
        injection heq with hh1 _
        injection hbs with hb1 _
        rw [← hh1, ← hb1]
        exact A3

theorem chained_head_bound :
    ∀ (rest : List DepthBufferSpan) (a : DepthBufferSpan),
    Chained (a :: rest) → (∀ s ∈ a :: rest, ValidSpan s) →
    ∀ b ∈ rest, b.farDistance ≤ a.nearDistance := by
  intro rest
  induction rest with
  | nil => intro a _ _ b hb; simp at hb
  | cons c rs ih =>
    intro a hch hv b hb
    have hpair := List.chain'_cons.mp hch
    have hcval : ValidSpan c :=
      hv c (List.mem_cons_of_mem _ (List.mem_cons_self _ _))
    rcases List.mem_cons.mp hb with hb | hb
    · rw [hb, hpair.1]
    · have hv2 : ∀ s ∈ c :: rs, ValidSpan s := fun s hs =>
        hv s (List.mem_cons_of_mem _ hs)
      have := ih c hpair.2 hv2 b hb
      calc b.farDistance ≤ c.nearDistance := this
        _ ≤ c.farDistance := le_of_lt hcval.2
        _ = a.nearDistance := hpair.1

theorem chained_pairwise :
    ∀ (l : List DepthBufferSpan), Chained l → (∀ s ∈ l, ValidSpan s) →
    List.Pairwise (fun a b => b.farDistance ≤ a.nearDistance) l := by
  intro l
  induction l with
  | nil => intro _ _; exact List.Pairwise.nil
  | cons a rest ih =>
    intro hch hv
    refine List.pairwise_cons.mpr ⟨?_, ?_⟩
    · exact chained_head_bound rest a hch hv
    · exact ih ((List.chain'_cons'.mp hch).2)
        (fun s hs => hv s (List.mem_cons_of_mem _ hs))

/-! ## Claim C1 -/

/-- Claim C1, counterexample.  The claim says that after coalescing,
every adjacent pair of merged spans satisfies
`next.nearDistance / current.farDistance ≥ PreferredNearFarRatio`
unless only one span remains, and that every merged span's own
near/far ratio is at least `MinimumNearFarRatio` unless only one span
exists.  For the sorted valid input `[{near 9, far 10},
{near 99999, far 100000}]` the coalesced list has three spans; the
adjacent ratio between the two farthest spans is `10/100000 = 0.0001 <
0.002`, and the middle (gap) span's own ratio is `10/99999 < 0.001`,
so both parts of the claim are false. -/
theorem claim_C1_counterexample :
    SortedByFar [(⟨9, 10⟩ : VisibleItem), ⟨99999, 100000⟩] ∧
    (∀ it ∈ [(⟨9, 10⟩ : VisibleItem), ⟨99999, 100000⟩], ValidItem it) ∧
    ¬ (List.Chain'
        (fun a b =>
          PreferredNearFarRatio ≤ b.nearDistance / a.farDistance)
        (coalesceDepthBuffer
          (splitDepthBuffer [(⟨9, 10⟩ : VisibleItem), ⟨99999, 100000⟩])) ∨
      (coalesceDepthBuffer
          (splitDepthBuffer
            [(⟨9, 10⟩ : VisibleItem), ⟨99999, 100000⟩])).length = 1) ∧
    ¬ ((∀ s ∈ coalesceDepthBuffer
          (splitDepthBuffer [(⟨9, 10⟩ : VisibleItem), ⟨99999, 100000⟩]),
          MinimumNearFarRatio ≤ s.nearDistance / s.farDistance) ∨
      (coalesceDepthBuffer
          (splitDepthBuffer
            [(⟨9, 10⟩ : VisibleItem), ⟨99999, 100000⟩])).length = 1) := by
  decide

/-- Claim C1 (amended).  For every visible-item list sorted ascending
by `farDistance` whose items have positive near distances below their
far distances, after the coalesce pass every adjacent pair of merged
spans satisfies `next.nearDistance / current.farDistance <
PreferredNearFarRatio` — that is, no further merge was possible — and
every merged span either is a raw span left unmerged (whose own ratio
is unconstrained) or absorbed at least one further raw span and then
has its own near/far ratio at least `PreferredNearFarRatio`. -/
theorem claim_C1_amended (items : List VisibleItem)
    (hsorted : SortedByFar items)
    (hvalid : ∀ it ∈ items, ValidItem it) :
    List.Chain'
      (fun a b => b.nearDistance / a.farDistance < PreferredNearFarRatio)
      (coalesceDepthBuffer (splitDepthBuffer items)) ∧
    ∀ s ∈ coalesceDepthBuffer (splitDepthBuffer items),
      s ∈ splitDepthBuffer items ∨
        PreferredNearFarRatio ≤ s.nearDistance / s.farDistance := by
  obtain ⟨hval, hch⟩ := splitDepthBuffer_inv items hvalid
  obtain ⟨_, _, h3, h4, _, _⟩ :=
    coalesceAux_spec (splitDepthBuffer items).length
      (splitDepthBuffer items) le_rfl hch hval
  exact ⟨h3, h4⟩

/-- Claim C1 (amended), witness at the input of the counterexample. -/
theorem claim_C1_amended_witness :
    (SortedByFar [(⟨9, 10⟩ : VisibleItem), ⟨99999, 100000⟩] ∧
      ∀ it ∈ [(⟨9, 10⟩ : VisibleItem), ⟨99999, 100000⟩], ValidItem it) ∧
    (List.Chain'
      (fun a b => b.nearDistance / a.farDistance < PreferredNearFarRatio)
      (coalesceDepthBuffer
        (splitDepthBuffer [(⟨9, 10⟩ : VisibleItem), ⟨99999, 100000⟩])) ∧
    ∀ s ∈ coalesceDepthBuffer
        (splitDepthBuffer [(⟨9, 10⟩ : VisibleItem), ⟨99999, 100000⟩]),
      s ∈ splitDepthBuffer [(⟨9, 10⟩ : VisibleItem), ⟨99999, 100000⟩] ∨
        PreferredNearFarRatio ≤ s.nearDistance / s.farDistance) :=
  ⟨⟨by decide, by decide⟩,
    claim_C1_amended [⟨9, 10⟩, ⟨99999, 100000⟩] (by decide) (by decide)⟩

/-! ## Claim C2 -/

/-- Claim C2.  For every non-empty visible-item list sorted ascending
by `farDistance` (with positive near distances below the far
distances, as `addVisibleItem` produces), both after `splitDepthBuffer`
and after `coalesceDepthBuffer`: the `itemCount` fields sum to the
number of visible items; the spans tile the global near-to-far range
contiguously in back-to-front order (`Chained`); every span is a
proper interval; and the spans are pairwise disjoint
(`next.farDistance ≤ current.nearDistance` for every later pair). -/
theorem claim_C2_span_coverage (items : List VisibleItem)
    (hne : items ≠ []) (hsorted : SortedByFar items)
    (hvalid : ∀ it ∈ items, ValidItem it) :
    totalItems (splitDepthBuffer items) = items.length ∧
    totalItems (coalesceDepthBuffer (splitDepthBuffer items)) =
      items.length ∧
    Chained (splitDepthBuffer items) ∧
    Chained (coalesceDepthBuffer (splitDepthBuffer items)) ∧
    (∀ s ∈ splitDepthBuffer items, ValidSpan s) ∧
    (∀ s ∈ coalesceDepthBuffer (splitDepthBuffer items), ValidSpan s) ∧
    List.Pairwise (fun a b => b.farDistance ≤ a.nearDistance)
      (splitDepthBuffer items) ∧
    List.Pairwise (fun a b => b.farDistance ≤ a.nearDistance)
      (coalesceDepthBuffer (splitDepthBuffer items)) := by
  obtain ⟨hval, hch⟩ := splitDepthBuffer_inv items hvalid
  obtain ⟨m1, m2, _, _, _, _⟩ :=
    coalesceAux_spec (splitDepthBuffer items).length
      (splitDepthBuffer items) le_rfl hch hval
  refine ⟨splitDepthBuffer_totalItems items, ?_, hch, m1, hval, m2, ?_, ?_⟩
  · rw [coalesceDepthBuffer_totalItems]
    exact splitDepthBuffer_totalItems items
  · exact chained_pairwise _ hch hval
  · exact chained_pairwise _ m1 m2

/-- Claim C2, witness at a two-item input. -/
theorem claim_C2_span_coverage_witness :
    (([(⟨9, 10⟩ : VisibleItem), ⟨99999, 100000⟩] ≠
        ([] : List VisibleItem)) ∧
      SortedByFar [(⟨9, 10⟩ : VisibleItem), ⟨99999, 100000⟩] ∧
      ∀ it ∈ [(⟨9, 10⟩ : VisibleItem), ⟨99999, 100000⟩], ValidItem it) ∧
    (totalItems
        (splitDepthBuffer [(⟨9, 10⟩ : VisibleItem), ⟨99999, 100000⟩]) =
      2 ∧
    totalItems
        (coalesceDepthBuffer
          (splitDepthBuffer
            [(⟨9, 10⟩ : VisibleItem), ⟨99999, 100000⟩])) = 2 ∧
    Chained (splitDepthBuffer [(⟨9, 10⟩ : VisibleItem), ⟨99999, 100000⟩]) ∧
    Chained
      (coalesceDepthBuffer
        (splitDepthBuffer [(⟨9, 10⟩ : VisibleItem), ⟨99999, 100000⟩])) ∧
    (∀ s ∈ splitDepthBuffer [(⟨9, 10⟩ : VisibleItem), ⟨99999, 100000⟩],
      ValidSpan s) ∧
    (∀ s ∈ coalesceDepthBuffer
        (splitDepthBuffer [(⟨9, 10⟩ : VisibleItem), ⟨99999, 100000⟩]),
      ValidSpan s) ∧
    List.Pairwise (fun a b => b.farDistance ≤ a.nearDistance)
      (splitDepthBuffer [(⟨9, 10⟩ : VisibleItem), ⟨99999, 100000⟩]) ∧
    List.Pairwise (fun a b => b.farDistance ≤ a.nearDistance)
      (coalesceDepthBuffer
        (splitDepthBuffer [(⟨9, 10⟩ : VisibleItem), ⟨99999, 100000⟩]))) :=
  ⟨⟨by decide, by decide, by decide⟩,
    claim_C2_span_coverage [⟨9, 10⟩, ⟨99999, 100000⟩] (by decide)
      (by decide) (by decide)⟩

/-! ## Lemmas about the span-list extension for splittable items -/

theorem insertByFar_ne_nil (item : VisibleItem) :
    ∀ l : List VisibleItem, insertByFar item l ≠ [] := by
  intro l
  cases l with
  | nil => simp [insertByFar]
  | cons x xs =>
    by_cases h : item.farDistance ≤ x.farDistance <;>
      simp [insertByFar, h]

theorem sortByFar_ne_nil (l : List VisibleItem) (h : l ≠ []) :
    sortByFar l ≠ [] := by
  cases l with
  | nil => exact absurd rfl h
  | cons x xs => exact insertByFar_ne_nil x (sortByFar xs)

theorem addFrontSpans_unfold (projNear : ℚ) (m : ℕ)
    (spans : List DepthBufferSpan) (lastSpan : DepthBufferSpan)
    (hlast : spans.getLast? = some lastSpan) :
    addFrontSpans projNear (m + 1) spans =
      if projNear < lastSpan.nearDistance then
        addFrontSpans projNear m
          (spans ++
            [⟨0, 0, max projNear (lastSpan.nearDistance / MaxFarNearRatio),
              lastSpan.nearDistance⟩])
      else spans := by
  rw [addFrontSpans, hlast]

theorem addFrontSpans_stop (projNear : ℚ) :
    ∀ (fuel : ℕ) (spans : List DepthBufferSpan)
      (lastSpan : DepthBufferSpan),
    spans.getLast? = some lastSpan →
    lastSpan.nearDistance ≤ projNear →
    addFrontSpans projNear fuel spans = spans := by
  intro fuel spans lastSpan hlast hle
  cases fuel with
  | zero => rfl
  | succ m =>
    rw [addFrontSpans_unfold projNear m spans lastSpan hlast,
      if_neg (not_lt.mpr hle)]

theorem addFrontSpans_append (projNear : ℚ) :
    ∀ (fuel : ℕ) (spans : List DepthBufferSpan),
    ∃ tail, addFrontSpans projNear fuel spans = spans ++ tail ∧
      ∀ t ∈ tail, t.backItemIndex = 0 ∧ t.itemCount = 0 ∧
        t.nearDistance = max projNear (t.farDistance / MaxFarNearRatio) := by
  intro fuel
  induction fuel with
  | zero =>
    intro spans
    exact ⟨[], by simp [addFrontSpans], by intro t ht; simp at ht⟩
  | succ m ih =>
    intro spans
    cases hlast : spans.getLast? with
    | none =>
      refine ⟨[], ?_, by intro t ht; simp at ht⟩
      rw [addFrontSpans, hlast]
      simp
    | some lastSpan =>
      by_cases hc : projNear < lastSpan.nearDistance
      · obtain ⟨tail, htail, hprops⟩ := ih (spans ++
          [⟨0, 0, max projNear (lastSpan.nearDistance / MaxFarNearRatio),
            lastSpan.nearDistance⟩])
        refine ⟨⟨0, 0,
          max projNear (lastSpan.nearDistance / MaxFarNearRatio),
          lastSpan.nearDistance⟩ :: tail, ?_, ?_⟩
        · rw [addFrontSpans_unfold projNear m spans lastSpan hlast,
            if_pos hc, htail, List.append_assoc]
          rfl
        · intro t ht
          rcases List.mem_cons.mp ht with ht | ht
          · rw [ht]
            exact ⟨rfl, rfl, rfl⟩
          · exact hprops t ht
      · refine ⟨[], ?_, by intro t ht; simp at ht⟩
        rw [addFrontSpans_unfold projNear m spans lastSpan hlast,
          if_neg hc]
        simp

theorem addFrontSpans_coverage (projNear : ℚ) (hpos : 0 < projNear) :
    ∀ (fuel : ℕ) (spans : List DepthBufferSpan)
      (lastSpan : DepthBufferSpan),
    spans.getLast? = some lastSpan →
    lastSpan.nearDistance ≤ projNear * MaxFarNearRatio ^ fuel →
    ∀ t, (addFrontSpans projNear fuel spans).getLast? = some t →
      t.nearDistance ≤ projNear := by
  intro fuel
  induction fuel with
  | zero =>
    intro spans lastSpan hlast hbound t ht
    rw [addFrontSpans] at ht
    rw [hlast] at ht
    have : lastSpan = t := Option.some.inj ht
    rw [← this]
    simpa using hbound
  | succ m ih =>
    intro spans lastSpan hlast hbound t ht
    rw [addFrontSpans_unfold projNear m spans lastSpan hlast] at ht
    by_cases hc : projNear < lastSpan.nearDistance
    · rw [if_pos hc] at ht
      have hR : (0:ℚ) < MaxFarNearRatio := by norm_num [MaxFarNearRatio]
      have h1 : (1:ℚ) ≤ MaxFarNearRatio ^ m :=
        one_le_pow₀ (by norm_num [MaxFarNearRatio])
      have hnew : (max projNear
          (lastSpan.nearDistance / MaxFarNearRatio)) ≤
          projNear * MaxFarNearRatio ^ m := by
        refine max_le ?_ ?_
        · calc projNear = projNear * 1 := by ring
            _ ≤ projNear * MaxFarNearRatio ^ m :=
              mul_le_mul_of_nonneg_left h1 (le_of_lt hpos)
        · rw [div_le_iff₀ hR]
          calc lastSpan.nearDistance ≤
              projNear * MaxFarNearRatio ^ (m + 1) := hbound
            _ = projNear * MaxFarNearRatio ^ m * MaxFarNearRatio := by
              rw [pow_succ]; ring
      exact ih _ _ (List.getLast?_concat _) hnew t ht
    · rw [if_neg hc, hlast] at ht
      have : lastSpan = t := Option.some.inj ht
      rw [← this]
      exact le_of_not_lt hc

/-! ## Claim C3 -/

/-- Claim C3, counterexample.  The claim says that with no visible
items and a non-empty splittable list the final merged span list is
exactly one synthetic span covering the camera near/far range.  With
camera near 1 and far 100 the code instead produces two spans: after
seeding the span `[1, 100]` the unconditional tail of the splittable
branch prepends one more synthetic back span `[100, 1000000]`. -/
theorem claim_C3_counterexample :
    ¬ ((renderViewSpans [] [⟨1/2, 50⟩] 1 100 5).length = 1) ∧
    renderViewSpans [] [⟨1/2, 50⟩] 1 100 5 =
      [⟨0, 0, 100, 1000000⟩, ⟨0, 0, 1, 100⟩] := by
  decide

/-- Claim C3 (amended).  In `renderView`, when the visible-item list is
empty but the splittable-item list is non-empty, and the camera range
satisfies `projFar ≤ projNear * MaxFarNearRatio`, the final merged
span list consists of exactly two synthetic spans: one covering the
whole camera near/far range `[projNear, projFar]`, preceded (in
back-to-front storage order) by one additional synthetic back span
`[projFar, projFar * MaxFarNearRatio]` that the splittable branch
always prepends. -/
theorem claim_C3_amended (splittableItems : List VisibleItem)
    (hne : splittableItems ≠ []) (projNear projFar : ℚ) (fuel : ℕ)
    (hratio : projFar ≤ projNear * MaxFarNearRatio) :
    renderViewSpans [] splittableItems projNear projFar fuel =
      [⟨0, 0, projFar, projFar * MaxFarNearRatio⟩,
        ⟨0, 0, projNear, projFar⟩] := by
  have hR : (0:ℚ) < MaxFarNearRatio := by norm_num [MaxFarNearRatio]
  have hmax : max projNear (projFar / MaxFarNearRatio) = projNear :=
    max_eq_left ((div_le_iff₀ hR).mpr hratio)
  cases hs : sortByFar splittableItems with
  | nil => exact absurd hs (sortByFar_ne_nil splittableItems hne)
  | cons it rest =>
    have h0 : renderViewSpans [] splittableItems projNear projFar fuel =
        extendSpansForSplittable it.farDistance projNear projFar fuel
          [] [] := by
      rw [renderViewSpans]
      rw [hs]
      rfl
    rw [h0]
    have h1 : extendSpansForSplittable it.farDistance projNear projFar
        fuel [] [] =
        match (addFrontSpans projNear fuel
            [⟨0, 0, projNear, projFar⟩]).head? with
        | none => addFrontSpans projNear fuel [⟨0, 0, projNear, projFar⟩]
        | some front =>
          ⟨0, 0, front.farDistance, front.farDistance * MaxFarNearRatio⟩ ::
            addFrontSpans projNear fuel [⟨0, 0, projNear, projFar⟩] := by
      rw [extendSpansForSplittable]
      rw [show (([] : List DepthBufferSpan).isEmpty) = true from rfl]
      rw [hmax]
      rfl
    rw [h1]
    have h2 : addFrontSpans projNear fuel [⟨0, 0, projNear, projFar⟩] =
        [⟨0, 0, projNear, projFar⟩] :=
      addFrontSpans_stop projNear fuel _ ⟨0, 0, projNear, projFar⟩ rfl
        le_rfl
    rw [h2]
    rfl

/-- Claim C3 (amended), witness. -/
theorem claim_C3_amended_witness :
    (([(⟨1/2, 50⟩ : VisibleItem)] ≠ ([] : List VisibleItem)) ∧
      (100 : ℚ) ≤ 1 * MaxFarNearRatio) ∧
    renderViewSpans [] [⟨1/2, 50⟩] 1 100 5 =
      [⟨0, 0, 100, 100 * MaxFarNearRatio⟩, ⟨0, 0, 1, 100⟩] :=
  ⟨⟨by decide, by decide⟩,
    claim_C3_amended [⟨1/2, 50⟩] (by decide) 1 100 5 (by decide)⟩

/-! ## Claim C4 -/

/-- Claim C4, counterexample.  The claim says every synthetic span
added by the splittable extension has near/far ratio bounded by
`MaxFarNearRatio = 10000`.  With one visible item (near 1/2, far 1)
and one splittable item with far distance 10^9, the gap back span
`[1, 10^9]` is added with ratio 10^9: the gap branch applies no ratio
clamp at all. -/
theorem claim_C4_counterexample :
    ¬ (∀ s ∈ renderViewSpans [⟨1/2, 1⟩] [⟨1/10, 1000000000⟩] (1/2)
          1000000000000 3,
        s.itemCount = 0 →
          s.farDistance ≤ s.nearDistance * MaxFarNearRatio) ∧
    renderViewSpans [⟨1/2, 1⟩] [⟨1/10, 1000000000⟩] (1/2)
        1000000000000 3 =
      [⟨0, 0, 1000000000, 10000000000000⟩, ⟨0, 0, 1, 1000000000⟩,
        ⟨0, 1, 1/2, 1⟩] := by
  decide

theorem extendSpans_cons (sFar projNear projFar : ℚ) (fuel : ℕ)
    (r : DepthBufferSpan) (rs : List DepthBufferSpan)
    (mh : DepthBufferSpan) (ml : List DepthBufferSpan)
    (m1 : List DepthBufferSpan)
    (hm1 : m1 = if mh.farDistance < min sFar projFar then
        ⟨0, 0, mh.farDistance, min sFar projFar⟩ :: mh :: ml
      else mh :: ml)
    (front : DepthBufferSpan) (m2 : List DepthBufferSpan)
    (hm2 : addFrontSpans projNear fuel m1 = front :: m2) :
    extendSpansForSplittable sFar projNear projFar fuel (r :: rs)
        (mh :: ml) =
      ⟨0, 0, front.farDistance, front.farDistance * MaxFarNearRatio⟩ ::
        front :: m2 := by
  subst hm1
  have h0 : extendSpansForSplittable sFar projNear projFar fuel
      (r :: rs) (mh :: ml) =
      match (addFrontSpans projNear fuel
        (if mh.farDistance < min sFar projFar then
          ⟨0, 0, mh.farDistance, min sFar projFar⟩ :: mh :: ml
        else mh :: ml)).head? with
      | none => addFrontSpans projNear fuel
          (if mh.farDistance < min sFar projFar then
            ⟨0, 0, mh.farDistance, min sFar projFar⟩ :: mh :: ml
          else mh :: ml)
      | some front2 =>
        ⟨0, 0, front2.farDistance,
          front2.farDistance * MaxFarNearRatio⟩ ::
          addFrontSpans projNear fuel
            (if mh.farDistance < min sFar projFar then
              ⟨0, 0, mh.farDistance, min sFar projFar⟩ :: mh :: ml
            else mh :: ml) := rfl
  rw [h0, hm2]
  rfl

/-- Claim C4 (amended).  With splittable items present and a non-empty
raw span list (merged spans `mh :: ml`), the extension behaves as
follows.  (1) A synthetic back span from the farthest merged span's
far distance to `min(splittableFrontFar, projFar)` is prepended
exactly when that distance exceeds the farthest span — where
`splittableFrontFar` is the far distance of the *first* (smallest-far)
sorted splittable item, the one the C++ reads via
`m_splittableItems.front()`; this gap span's near/far ratio is not
clamped at all (see the counterexample).  (2) Every span of the final
list is either an original merged span or a synthetic empty span of
one of three kinds: the gap back span, a front span with
`nearDistance = max(projNear, farDistance / MaxFarNearRatio)` (hence
ratio at most `MaxFarNearRatio` and reaching no deeper than the camera
near plane), or the outermost back span.  (3) The final list always
starts with an outermost synthetic back span whose far distance is
exactly `MaxFarNearRatio` times its near distance.  (4) Given enough
fuel for the front-fill loop to finish, the frontmost (last-stored)
span reaches the camera's configured near distance. -/
theorem claim_C4_amended (splittableFrontFar projNear projFar : ℚ)
    (fuel : ℕ) (rawSpans : List DepthBufferSpan)
    (mh : DepthBufferSpan) (ml : List DepthBufferSpan)
    (hraw : rawSpans ≠ []) (hpos : 0 < projNear) :
    (mh.farDistance < min splittableFrontFar projFar →
      (⟨0, 0, mh.farDistance, min splittableFrontFar projFar⟩ :
          DepthBufferSpan) ∈
        extendSpansForSplittable splittableFrontFar projNear projFar
          fuel rawSpans (mh :: ml)) ∧
    (∀ t ∈ extendSpansForSplittable splittableFrontFar projNear projFar
        fuel rawSpans (mh :: ml),
      t ∈ mh :: ml ∨
        (t.backItemIndex = 0 ∧ t.itemCount = 0 ∧
          (t = ⟨0, 0, mh.farDistance, min splittableFrontFar projFar⟩ ∨
            t.nearDistance =
              max projNear (t.farDistance / MaxFarNearRatio) ∨
            t.farDistance = t.nearDistance * MaxFarNearRatio))) ∧
    (∃ back m2,
      extendSpansForSplittable splittableFrontFar projNear projFar fuel
          rawSpans (mh :: ml) = back :: m2 ∧
      back.itemCount = 0 ∧
      back.farDistance = back.nearDistance * MaxFarNearRatio) ∧
    ((∀ lt, (mh :: ml).getLast? = some lt →
        lt.nearDistance ≤ projNear * MaxFarNearRatio ^ fuel) →
      ∀ t, (extendSpansForSplittable splittableFrontFar projNear projFar
          fuel rawSpans (mh :: ml)).getLast? = some t →
        t.nearDistance ≤ projNear) := by
  cases rawSpans with
  | nil => exact absurd rfl hraw
  | cons r rs =>
    obtain ⟨lt, hlt⟩ : ∃ x, (mh :: ml).getLast? = some x :=
      ⟨(mh :: ml).getLast (by simp), List.getLast?_eq_getLast _ _⟩
    by_cases hgap : mh.farDistance < min splittableFrontFar projFar
    · -- the gap back span is prepended
      obtain ⟨tail, htail, hprops⟩ := addFrontSpans_append projNear fuel
        (⟨0, 0, mh.farDistance, min splittableFrontFar projFar⟩ ::
          mh :: ml)
      have hm2 : addFrontSpans projNear fuel
          (⟨0, 0, mh.farDistance, min splittableFrontFar projFar⟩ ::
            mh :: ml) =
          (⟨0, 0, mh.farDistance, min splittableFrontFar projFar⟩ :
            DepthBufferSpan) :: ((mh :: ml) ++ tail) := by
        rw [htail]
        rfl
      have hres := extendSpans_cons splittableFrontFar projNear projFar
        fuel r rs mh ml _ (if_pos hgap).symm _ _ hm2
      refine ⟨?_, ?_, ?_, ?_⟩
      · intro _
        rw [hres]
        exact List.mem_cons_of_mem _ (List.mem_cons_self _ _)
      · intro t ht
        rw [hres] at ht
        rcases List.mem_cons.mp ht with ht | ht
        · right
          rw [ht]
          exact ⟨rfl, rfl, Or.inr (Or.inr rfl)⟩
        rcases List.mem_cons.mp ht with ht | ht
        · right
          rw [ht]
          exact ⟨rfl, rfl, Or.inl rfl⟩
        rcases List.mem_append.mp ht with ht | ht
        · left
          exact ht
        · right
          obtain ⟨hp1, hp2, hp3⟩ := hprops t ht
          exact ⟨hp1, hp2, Or.inr (Or.inl hp3)⟩
      · exact ⟨_, _, hres, rfl, rfl⟩
      · intro hfuel t ht
        rw [hres, List.getLast?_cons_cons, ← hm2] at ht
        have hM1last : (⟨0, 0, mh.farDistance,
            min splittableFrontFar projFar⟩ :: mh :: ml :
              List DepthBufferSpan).getLast? = some lt := by
          rw [List.getLast?_cons_cons]
          exact hlt
        exact addFrontSpans_coverage projNear hpos fuel _ lt hM1last
          (hfuel lt hlt) t ht
    · -- no gap back span
      obtain ⟨tail, htail, hprops⟩ := addFrontSpans_append projNear fuel
        (mh :: ml)
      have hm2 : addFrontSpans projNear fuel (mh :: ml) =
          mh :: (ml ++ tail) := by
        rw [htail]
        rfl
      have hres := extendSpans_cons splittableFrontFar projNear projFar
        fuel r rs mh ml _ (if_neg hgap).symm _ _ hm2
      refine ⟨?_, ?_, ?_, ?_⟩
      · intro hcon
        exact absurd hcon hgap
      · intro t ht
        rw [hres] at ht
        rcases List.mem_cons.mp ht with ht | ht
        · right
          rw [ht]
          exact ⟨rfl, rfl, Or.inr (Or.inr rfl)⟩
        rcases List.mem_cons.mp ht with ht | ht
        · left
          rw [ht]
          exact List.mem_cons_self _ _
        rcases List.mem_append.mp ht with ht | ht
        · left
          exact List.mem_cons_of_mem _ ht
        · right
          obtain ⟨hp1, hp2, hp3⟩ := hprops t ht
          exact ⟨hp1, hp2, Or.inr (Or.inl hp3)⟩
      · exact ⟨_, _, hres, rfl, rfl⟩
      · intro hfuel t ht
        rw [hres, List.getLast?_cons_cons, ← hm2] at ht
        exact addFrontSpans_coverage projNear hpos fuel _ lt hlt
          (hfuel lt hlt) t ht

/-- Claim C4 (amended), witness at the counterexample's configuration
(raw and merged spans of the single visible item near 1/2, far 1). -/
theorem claim_C4_amended_witness :
    (([(⟨0, 1, 1/2, 1⟩ : DepthBufferSpan)] ≠
        ([] : List DepthBufferSpan)) ∧ (0 : ℚ) < 1/2) ∧
    (((⟨0, 1, 1/2, 1⟩ : DepthBufferSpan).farDistance <
        min 1000000000 1000000000000 →
      (⟨0, 0, (⟨0, 1, 1/2, 1⟩ : DepthBufferSpan).farDistance,
          min 1000000000 1000000000000⟩ : DepthBufferSpan) ∈
        extendSpansForSplittable 1000000000 (1/2) 1000000000000 3
          [⟨0, 1, 1/2, 1⟩] [⟨0, 1, 1/2, 1⟩]) ∧
    (∀ t ∈ extendSpansForSplittable 1000000000 (1/2) 1000000000000 3
        [⟨0, 1, 1/2, 1⟩] [⟨0, 1, 1/2, 1⟩],
      t ∈ [(⟨0, 1, 1/2, 1⟩ : DepthBufferSpan)] ∨
        (t.backItemIndex = 0 ∧ t.itemCount = 0 ∧
          (t = ⟨0, 0, (⟨0, 1, 1/2, 1⟩ : DepthBufferSpan).farDistance,
              min 1000000000 1000000000000⟩ ∨
            t.nearDistance =
              max (1/2) (t.farDistance / MaxFarNearRatio) ∨
            t.farDistance = t.nearDistance * MaxFarNearRatio))) ∧
    (∃ back m2,
      extendSpansForSplittable 1000000000 (1/2) 1000000000000 3
          [⟨0, 1, 1/2, 1⟩] [⟨0, 1, 1/2, 1⟩] = back :: m2 ∧
      back.itemCount = 0 ∧
      back.farDistance = back.nearDistance * MaxFarNearRatio) ∧
    ((∀ lt, ([(⟨0, 1, 1/2, 1⟩ : DepthBufferSpan)]).getLast? = some lt →
        lt.nearDistance ≤ (1/2) * MaxFarNearRatio ^ 3) →
      ∀ t, (extendSpansForSplittable 1000000000 (1/2) 1000000000000 3
          [⟨0, 1, 1/2, 1⟩] [⟨0, 1, 1/2, 1⟩]).getLast? = some t →
        t.nearDistance ≤ 1/2)) :=
  ⟨⟨by decide, by decide⟩,
    claim_C4_amended 1000000000 (1/2) 1000000000000 3 [⟨0, 1, 1/2, 1⟩]
      ⟨0, 1, 1/2, 1⟩ [] (by decide) (by decide)⟩

/-! ## Claim C5 -/

/-- Claim C5.  For every entity processed by `addVisibleItem`: the near
distance is the geometry's near-plane distance clamped from below
(under `PreserveDepthPrecision` to `boundingRadius × MinimumNearFarRatio
× 2`, under the other two policies to `MinimumNearPlaneDistance`) and
then scaled by the FOV adjustment factor; the item is appended to a
list exactly when `farDistance > 0` and `nearDistance < farDistance`;
and an admitted item goes to the splittable list exactly when its
clipping policy is `SplitToPreventClipping`, otherwise to the visible
candidate list. -/
theorem claim_C5_addVisibleItem
    (visibleItems splittableItems : List VisibleItem)
    (g : GeometryModel) (cameraSpaceZ nearAdjust : ℚ) :
    ((0 < -cameraSpaceZ + g.boundingSphereRadius ∧
        clampedNearDistance g * nearAdjust <
          -cameraSpaceZ + g.boundingSphereRadius) →
      (g.clippingPolicy = .SplitToPreventClipping →
        addVisibleItem visibleItems splittableItems g cameraSpaceZ
            nearAdjust =
          (visibleItems, splittableItems ++
            [⟨clampedNearDistance g * nearAdjust,
              -cameraSpaceZ + g.boundingSphereRadius⟩])) ∧
      (g.clippingPolicy ≠ .SplitToPreventClipping →
        addVisibleItem visibleItems splittableItems g cameraSpaceZ
            nearAdjust =
          (visibleItems ++
            [⟨clampedNearDistance g * nearAdjust,
              -cameraSpaceZ + g.boundingSphereRadius⟩],
            splittableItems))) ∧
    (¬ (0 < -cameraSpaceZ + g.boundingSphereRadius ∧
        clampedNearDistance g * nearAdjust <
          -cameraSpaceZ + g.boundingSphereRadius) →
      addVisibleItem visibleItems splittableItems g cameraSpaceZ
          nearAdjust = (visibleItems, splittableItems)) ∧
    (g.clippingPolicy = .PreserveDepthPrecision →
      g.boundingSphereRadius * MinimumNearFarRatio * 2 ≤
          clampedNearDistance g ∧
        g.nearPlaneDistanceValue ≤ clampedNearDistance g) ∧
    (g.clippingPolicy ≠ .PreserveDepthPrecision →
      MinimumNearPlaneDistance ≤ clampedNearDistance g ∧
        g.nearPlaneDistanceValue ≤ clampedNearDistance g) := by
  refine ⟨?_, ?_, ?_, ?_⟩
  · intro hadm
    constructor
    · intro hsplit
      simp only [addVisibleItem]
      rw [if_pos hadm, if_pos hsplit]
    · intro hsplit
      simp only [addVisibleItem]
      rw [if_pos hadm, if_neg hsplit]
  · intro hadm
    simp only [addVisibleItem]
    rw [if_neg hadm]
  · intro hp
    simp only [clampedNearDistance, hp]
    exact ⟨le_max_right _ _, le_max_left _ _⟩
  · intro hp
    cases hpol : g.clippingPolicy with
    | PreserveDepthPrecision => exact absurd hpol hp
    | PreventClipping =>
      simp only [clampedNearDistance, hpol]
      exact ⟨le_max_right _ _, le_max_left _ _⟩
    | SplitToPreventClipping =>
      simp only [clampedNearDistance, hpol]
      exact ⟨le_max_right _ _, le_max_left _ _⟩

/-- Claim C5, witness: a unit sphere at camera distance 10 with the
`PreserveDepthPrecision` policy is admitted to the visible list. -/
theorem claim_C5_addVisibleItem_witness :
    ((0 < -(-10 : ℚ) +
        (⟨1, .PreserveDepthPrecision, 1/10⟩ :
          GeometryModel).boundingSphereRadius ∧
        clampedNearDistance ⟨1, .PreserveDepthPrecision, 1/10⟩ * (1/2) <
          -(-10 : ℚ) +
            (⟨1, .PreserveDepthPrecision, 1/10⟩ :
              GeometryModel).boundingSphereRadius) →
      ((⟨1, .PreserveDepthPrecision, 1/10⟩ : GeometryModel).clippingPolicy =
          .SplitToPreventClipping →
        addVisibleItem [] [] ⟨1, .PreserveDepthPrecision, 1/10⟩ (-10)
            (1/2) =
          ([], [] ++
            [⟨clampedNearDistance ⟨1, .PreserveDepthPrecision, 1/10⟩ *
                (1/2),
              -(-10 : ℚ) +
                (⟨1, .PreserveDepthPrecision, 1/10⟩ :
                  GeometryModel).boundingSphereRadius⟩])) ∧
      ((⟨1, .PreserveDepthPrecision, 1/10⟩ : GeometryModel).clippingPolicy ≠
          .SplitToPreventClipping →
        addVisibleItem [] [] ⟨1, .PreserveDepthPrecision, 1/10⟩ (-10)
            (1/2) =
          ([] ++
            [⟨clampedNearDistance ⟨1, .PreserveDepthPrecision, 1/10⟩ *
                (1/2),
              -(-10 : ℚ) +
                (⟨1, .PreserveDepthPrecision, 1/10⟩ :
                  GeometryModel).boundingSphereRadius⟩],
            []))) ∧
    (¬ (0 < -(-10 : ℚ) +
        (⟨1, .PreserveDepthPrecision, 1/10⟩ :
          GeometryModel).boundingSphereRadius ∧
        clampedNearDistance ⟨1, .PreserveDepthPrecision, 1/10⟩ * (1/2) <
          -(-10 : ℚ) +
            (⟨1, .PreserveDepthPrecision, 1/10⟩ :
              GeometryModel).boundingSphereRadius) →
      addVisibleItem [] [] ⟨1, .PreserveDepthPrecision, 1/10⟩ (-10)
          (1/2) = ([], [])) ∧
    ((⟨1, .PreserveDepthPrecision, 1/10⟩ : GeometryModel).clippingPolicy =
        .PreserveDepthPrecision →
      (⟨1, .PreserveDepthPrecision, 1/10⟩ :
          GeometryModel).boundingSphereRadius * MinimumNearFarRatio * 2 ≤
          clampedNearDistance ⟨1, .PreserveDepthPrecision, 1/10⟩ ∧
        (⟨1, .PreserveDepthPrecision, 1/10⟩ :
            GeometryModel).nearPlaneDistanceValue ≤
          clampedNearDistance ⟨1, .PreserveDepthPrecision, 1/10⟩) ∧
    ((⟨1, .PreserveDepthPrecision, 1/10⟩ : GeometryModel).clippingPolicy ≠
        .PreserveDepthPrecision →
      MinimumNearPlaneDistance ≤
          clampedNearDistance ⟨1, .PreserveDepthPrecision, 1/10⟩ ∧
        (⟨1, .PreserveDepthPrecision, 1/10⟩ :
            GeometryModel).nearPlaneDistanceValue ≤
          clampedNearDistance ⟨1, .PreserveDepthPrecision, 1/10⟩) :=
  claim_C5_addVisibleItem [] [] ⟨1, .PreserveDepthPrecision, 1/10⟩ (-10)
    (1/2)

/-! ## Claim C6 -/

/-- Claim C6.  The view-set state machine returns exactly the
documented status codes, in the documented precedence:
`beginViewSet` returns `RendererUninitialized` when graphics are not
initialized, else `RendererBadParameter` when the universe pointer is
null, else `RenderViewSetAlreadyStarted` when a view set is already
open (the failing calls leave the state unchanged); `renderView`
returns `RenderNoViewSet` exactly when no view set is open;
`endViewSet` returns `RenderNoViewSet` when no view set is open and
otherwise clears the open scene reference and returns `RenderOk`. -/
theorem claim_C6_state_machine (st : RendererState)
    (universeIsNull : Bool) :
    (st.renderContextInitialized = false →
      (beginViewSet st universeIsNull).2 = .RendererUninitialized ∧
        (beginViewSet st universeIsNull).1 = st) ∧
    (st.renderContextInitialized = true → universeIsNull = true →
      (beginViewSet st universeIsNull).2 = .RendererBadParameter ∧
        (beginViewSet st universeIsNull).1 = st) ∧
    (st.renderContextInitialized = true → universeIsNull = false →
      st.universeOpen = true →
      (beginViewSet st universeIsNull).2 = .RenderViewSetAlreadyStarted ∧
        (beginViewSet st universeIsNull).1 = st) ∧
    (st.renderContextInitialized = true → universeIsNull = false →
      st.universeOpen = false →
      (beginViewSet st universeIsNull).2 = .RenderOk ∧
        (beginViewSet st universeIsNull).1.universeOpen = true) ∧
    (renderViewStatus st = .RenderNoViewSet ↔ st.universeOpen = false) ∧
    (st.universeOpen = false → endViewSet st = (st, .RenderNoViewSet)) ∧
    (st.universeOpen = true →
      (endViewSet st).1.universeOpen = false ∧
        (endViewSet st).2 = .RenderOk) := by
  obtain ⟨rc, uo, se, sm⟩ := st
  cases rc <;> cases uo <;> cases universeIsNull <;>
    simp [beginViewSet, renderViewStatus, endViewSet]

/-! ## Claim C7 -/

/-- Claim C7.  Culling thresholds are strict: an entity with geometry
whose projected size `boundingRadius / distance / pixelSize` is
exactly 0.5 pixels is not size-culled (size-culling happens exactly
when the projected size is strictly below 0.5), and a light source
inside the view frustum whose projected size
`range / distance / pixelSize` is exactly 1.0 is not culled (the
sub-pixel cull fires exactly when strictly below 1.0). -/
theorem claim_C7_culling_boundaries
    (boundingRadius distance pixelSize : ℚ) (l : LightSourceItem) :
    (boundingRadius / distance / pixelSize = 1/2 →
      entitySizeCull true boundingRadius distance pixelSize = false) ∧
    (entitySizeCull true boundingRadius distance pixelSize = true ↔
      boundingRadius / distance / pixelSize < 1/2) ∧
    (l.isSun = false → l.inFrustum = true →
      l.range / l.distance / pixelSize = 1 →
      lightSourceCulled pixelSize l = false) ∧
    (l.isSun = false → l.inFrustum = true →
      (lightSourceCulled pixelSize l = true ↔
        l.range / l.distance / pixelSize < 1)) := by
  refine ⟨?_, ?_, ?_, ?_⟩
  · intro h
    simp [entitySizeCull, h]
  · simp [entitySizeCull]
  · intro h1 h2 h3
    simp [lightSourceCulled, h1, h2, h3]
  · intro h1 h2
    by_cases h3 : l.range / l.distance / pixelSize < 1 <;>
      simp [lightSourceCulled, h1, h2, h3]

/-- Claim C7, witness: projected entity size exactly 0.5 (radius 1,
distance 1, pixel size 2) and a frustum-intersecting light of
projected size exactly 1 (range 2, distance 1, pixel size 2). -/
theorem claim_C7_culling_boundaries_witness :
    (((1:ℚ) / 1 / 2 = 1/2 → entitySizeCull true 1 1 2 = false) ∧
    (entitySizeCull true 1 1 2 = true ↔ (1:ℚ) / 1 / 2 < 1/2) ∧
    ((⟨false, false, 2, 1, true⟩ : LightSourceItem).isSun = false →
      (⟨false, false, 2, 1, true⟩ : LightSourceItem).inFrustum = true →
      (⟨false, false, 2, 1, true⟩ : LightSourceItem).range /
          (⟨false, false, 2, 1, true⟩ : LightSourceItem).distance / 2 =
        1 →
      lightSourceCulled 2 ⟨false, false, 2, 1, true⟩ = false) ∧
    ((⟨false, false, 2, 1, true⟩ : LightSourceItem).isSun = false →
      (⟨false, false, 2, 1, true⟩ : LightSourceItem).inFrustum = true →
      (lightSourceCulled 2 ⟨false, false, 2, 1, true⟩ = true ↔
        (⟨false, false, 2, 1, true⟩ : LightSourceItem).range /
            (⟨false, false, 2, 1, true⟩ : LightSourceItem).distance / 2 <
          1))) :=
  claim_C7_culling_boundaries 1 1 2 ⟨false, false, 2, 1, true⟩

/-! ## Claim C8 -/

/-- A concrete `std::sort` output satisfying the sort contract while
swapping the two non-casting lights. -/
theorem c8_sort_contract_example :
    SortContractHolds
      (visibleLightCandidates 1
        [⟨true, false, 0, 1, true⟩, ⟨false, false, 10, 1, true⟩,
          ⟨false, false, 20, 1, true⟩])
      [⟨true, false, 0, 1, true⟩, ⟨false, false, 20, 1, true⟩,
        ⟨false, false, 10, 1, true⟩] := by
  constructor
  · rw [show visibleLightCandidates 1
        [⟨true, false, 0, 1, true⟩, ⟨false, false, 10, 1, true⟩,
          ⟨false, false, 20, 1, true⟩] =
        [⟨true, false, 0, 1, true⟩, ⟨false, false, 10, 1, true⟩,
          ⟨false, false, 20, 1, true⟩] from by decide]
    exact List.Perm.cons _ (List.Perm.swap _ _ _)
  · decide

/-- Claim C8, counterexample to the stability part.  The claim says the
visible-light sort is stable, so non-shadow-casting lights keep their
master-list order.  The C++ uses `std::sort`, whose contract
(permutation, sorted with respect to the predicate) also admits the
output that swaps the two non-casting lights, so stability is not
guaranteed by the code. -/
theorem claim_C8_counterexample :
    SortContractHolds
      (visibleLightCandidates 1
        [⟨true, false, 0, 1, true⟩, ⟨false, false, 10, 1, true⟩,
          ⟨false, false, 20, 1, true⟩])
      [⟨true, false, 0, 1, true⟩, ⟨false, false, 20, 1, true⟩,
        ⟨false, false, 10, 1, true⟩] ∧
    ([(⟨true, false, 0, 1, true⟩ : LightSourceItem),
        ⟨false, false, 20, 1, true⟩, ⟨false, false, 10, 1, true⟩].filter
        (fun l => !(l.isSun || l.shadowCaster))) ≠
      ([(⟨true, false, 0, 1, true⟩ : LightSourceItem),
          ⟨false, false, 10, 1, true⟩, ⟨false, false, 20, 1, true⟩].filter
          (fun l => !(l.isSun || l.shadowCaster))) :=
  ⟨c8_sort_contract_example, by decide⟩

/-- Claim C8 (amended).  In `buildVisibleLightSourceList` the sun
sentinel (null `lightSource`) is never culled by either the sub-pixel
test or the frustum test, and every output `std::sort` may produce
(a permutation of the filtered list that is sorted with respect to
`lightCastsShadowsPredicate`) places every shadow-casting light — the
sun included — before every non-shadow-casting light.  Stability,
however, is not part of the `std::sort` contract, so the relative
order of the non-casters is not preserved in general (see the
counterexample). -/
theorem claim_C8_amended (pixelSize : ℚ)
    (master out : List LightSourceItem)
    (hsort : SortContractHolds (visibleLightCandidates pixelSize master)
      out) :
    (∀ l ∈ master, l.isSun = true →
      l ∈ visibleLightCandidates pixelSize master ∧ l ∈ out) ∧
    List.Pairwise
      (fun a b => (b.isSun || b.shadowCaster) = true →
        (a.isSun || a.shadowCaster) = true) out := by
  constructor
  · intro l hl hsun
    have hcull : lightSourceCulled pixelSize l = false := by
      simp [lightSourceCulled, hsun]
    have hmem : l ∈ visibleLightCandidates pixelSize master := by
      rw [visibleLightCandidates, List.mem_filter]
      exact ⟨hl, by rw [hcull]; rfl⟩
    exact ⟨hmem, hsort.1.mem_iff.mp hmem⟩
  · have hch : List.Chain'
        (fun a b => castsShadowRank b ≤ castsShadowRank a) out := by
      refine hsort.2.imp ?_
      intro a b hab
      simp only [lightCastsShadowsPred, decide_eq_false_iff_not] at hab
      exact le_of_not_lt hab
    haveI : IsTrans LightSourceItem
        (fun a b => castsShadowRank b ≤ castsShadowRank a) :=
      ⟨fun _ _ _ hab hbc => le_trans hbc hab⟩
    have hpair : List.Pairwise
        (fun a b => castsShadowRank b ≤ castsShadowRank a) out := by
      refine List.chain'_iff_pairwise.mp hch
    refine hpair.imp ?_
    intro a b hle hcast
    have hb : castsShadowRank b = 1 := by
      rw [castsShadowRank, hcast]
      rfl
    have ha : 1 ≤ castsShadowRank a := hb ▸ hle
    rw [castsShadowRank] at ha
    by_cases hc : (a.isSun || a.shadowCaster) = true
    · exact hc
    · rw [if_neg hc] at ha
      omega

/-- Claim C8 (amended), witness at the counterexample's configuration. -/
theorem claim_C8_amended_witness :
    SortContractHolds
      (visibleLightCandidates 1
        [⟨true, false, 0, 1, true⟩, ⟨false, false, 10, 1, true⟩,
          ⟨false, false, 20, 1, true⟩])
      [⟨true, false, 0, 1, true⟩, ⟨false, false, 20, 1, true⟩,
        ⟨false, false, 10, 1, true⟩] ∧
    ((∀ l ∈ [(⟨true, false, 0, 1, true⟩ : LightSourceItem),
        ⟨false, false, 10, 1, true⟩, ⟨false, false, 20, 1, true⟩],
      l.isSun = true →
        l ∈ visibleLightCandidates 1
            [⟨true, false, 0, 1, true⟩, ⟨false, false, 10, 1, true⟩,
              ⟨false, false, 20, 1, true⟩] ∧
          l ∈ [(⟨true, false, 0, 1, true⟩ : LightSourceItem),
            ⟨false, false, 20, 1, true⟩, ⟨false, false, 10, 1, true⟩]) ∧
    List.Pairwise
      (fun a b => (b.isSun || b.shadowCaster) = true →
        (a.isSun || a.shadowCaster) = true)
      [(⟨true, false, 0, 1, true⟩ : LightSourceItem),
        ⟨false, false, 20, 1, true⟩, ⟨false, false, 10, 1, true⟩]) :=
  ⟨c8_sort_contract_example,
    claim_C8_amended 1
      [⟨true, false, 0, 1, true⟩, ⟨false, false, 10, 1, true⟩,
        ⟨false, false, 20, 1, true⟩]
      [⟨true, false, 0, 1, true⟩, ⟨false, false, 20, 1, true⟩,
        ⟨false, false, 10, 1, true⟩]
      c8_sort_contract_example⟩

/-! ## Claim C9 -/

/-- Claim C9.  `renderView` is deterministic over its inputs: the
per-frame lists it fills are cleared before being refilled, so the
result does not depend on the transient state left by earlier calls,
and two consecutive calls with identical camera, projection, scene and
light state produce identical span partitions, depth-sorted item lists
and visible-light-source order. -/
theorem claim_C9_renderView_idempotent
    (visibleItems splittableItems : List VisibleItem)
    (masterLights : List LightSourceItem)
    (pixelSize projNear projFar : ℚ) (fuel : ℕ)
    (lightOrder : List LightSourceItem → List LightSourceItem)
    (prev1 prev2 : ViewTransients) :
    renderViewPass visibleItems splittableItems masterLights pixelSize
        projNear projFar fuel lightOrder prev1 =
      renderViewPass visibleItems splittableItems masterLights
        pixelSize projNear projFar fuel lightOrder prev2 ∧
    renderViewPass visibleItems splittableItems masterLights pixelSize
        projNear projFar fuel lightOrder
        (renderViewPass visibleItems splittableItems masterLights
          pixelSize projNear projFar fuel lightOrder prev1) =
      renderViewPass visibleItems splittableItems masterLights
        pixelSize projNear projFar fuel lightOrder prev1 :=
  ⟨rfl, rfl⟩

/-! ## Claim C10 -/

/-- Claim C10.  `setShadowsEnabled(true)` leaves shadow rendering
disabled unless the first directional shadow-map pool entry is
non-null and valid; the invariant "shadows enabled implies a valid
first pool entry" is preserved by `setShadowsEnabled`,
`initializeShadowMaps`, `beginViewSet` and `endViewSet`; and
`initializeShadowMaps` resets shadows to disabled before rebuilding
the pool whenever it gets past its capability checks. -/
theorem claim_C10_shadow_invariant (st : RendererState) (enable : Bool)
    (supported : Bool) (creations : List (Option Bool))
    (universeIsNull : Bool) :
    (st.shadowMaps.headD none ≠ some true →
      (setShadowsEnabled st enable).shadowsEnabled =
        st.shadowsEnabled) ∧
    (ShadowInvariant st →
      ShadowInvariant (setShadowsEnabled st enable)) ∧
    (ShadowInvariant st →
      ShadowInvariant (initializeShadowMaps st supported creations).1) ∧
    (st.renderContextInitialized = true → supported = true →
      (initializeShadowMaps st supported creations).1.shadowsEnabled =
        false) ∧
    (ShadowInvariant st →
      ShadowInvariant (beginViewSet st universeIsNull).1) ∧
    (ShadowInvariant st → ShadowInvariant (endViewSet st).1) := by
  refine ⟨?_, ?_, ?_, ?_, ?_, ?_⟩
  · intro hne
    cases hh : st.shadowMaps.headD none with
    | none =>
      rw [setShadowsEnabled, hh]
    | some v =>
      cases v with
      | true => exact absurd hh hne
      | false => rw [setShadowsEnabled, hh]
  · intro hinv
    cases hh : st.shadowMaps.headD none with
    | none =>
      rw [setShadowsEnabled, hh]
      exact hinv
    | some v =>
      cases v with
      | true =>
        rw [setShadowsEnabled, hh]
        intro _
        exact hh
      | false =>
        rw [setShadowsEnabled, hh]
        exact hinv
  · intro hinv
    rw [initializeShadowMaps]
    by_cases h1 : st.renderContextInitialized = false
    · rw [if_pos h1]
      exact hinv
    · rw [if_neg h1]
      by_cases h2 : supported = false
      · rw [if_pos h2]
        exact hinv
      · rw [if_neg h2]
        cases hbuild : buildShadowPool creations with
        | none =>
          intro hcon
          exact absurd hcon (by simp)
        | some pool =>
          intro hcon
          exact absurd hcon (by simp)
  · intro h1 h2
    rw [initializeShadowMaps, if_neg (by rw [h1]; simp),
      if_neg (by rw [h2]; simp)]
    cases hbuild : buildShadowPool creations with
    | none => rfl
    | some pool => rfl
  · intro hinv
    rw [beginViewSet]
    by_cases h1 : st.renderContextInitialized = false
    · rw [if_pos h1]; exact hinv
    · rw [if_neg h1]
      by_cases h2 : universeIsNull
      · rw [if_pos h2]; exact hinv
      · rw [if_neg h2]
        by_cases h3 : st.universeOpen
        · rw [if_pos h3]; exact hinv
        · rw [if_neg h3]; exact hinv
  · intro hinv
    rw [endViewSet]
    by_cases h1 : st.universeOpen = false
    · rw [if_pos h1]; exact hinv
    · rw [if_neg h1]; exact hinv

/-- Claim C10, witness: a renderer with a valid one-entry pool. -/
theorem claim_C10_shadow_invariant_witness :
    ((⟨true, false, true, [some true]⟩ :
        RendererState).shadowMaps.headD none ≠ some true →
      (setShadowsEnabled ⟨true, false, true, [some true]⟩
          true).shadowsEnabled =
        (⟨true, false, true, [some true]⟩ :
          RendererState).shadowsEnabled) ∧
    (ShadowInvariant ⟨true, false, true, [some true]⟩ →
      ShadowInvariant
        (setShadowsEnabled ⟨true, false, true, [some true]⟩ true)) ∧
    (ShadowInvariant ⟨true, false, true, [some true]⟩ →
      ShadowInvariant
        (initializeShadowMaps ⟨true, false, true, [some true]⟩ true
          [some true]).1) ∧
    ((⟨true, false, true, [some true]⟩ :
        RendererState).renderContextInitialized = true → true = true →
      (initializeShadowMaps ⟨true, false, true, [some true]⟩ true
          [some true]).1.shadowsEnabled = false) ∧
    (ShadowInvariant ⟨true, false, true, [some true]⟩ →
      ShadowInvariant
        (beginViewSet ⟨true, false, true, [some true]⟩ false).1) ∧
    (ShadowInvariant ⟨true, false, true, [some true]⟩ →
      ShadowInvariant (endViewSet ⟨true, false, true, [some true]⟩).1) :=
  claim_C10_shadow_invariant ⟨true, false, true, [some true]⟩ true true
    [some true] false

end VestaRenderer
